import Mathlib

/-!
Verification of the Trivia Game session and scoring engine.

The definitions below are a shallow embedding of the PostgreSQL schema and
stored procedures declared in `init_postgresql_database.py`:

* `game_sessions`, `player_answers`, `high_scores` tables become lists of
  structures inside `DBState`; `SERIAL` session ids become `nextSessionId`;
  `clock_timestamp()` becomes a logical `clock : Nat` ticked on every
  timestamped event.
* `fn_get_unanswered_questions` splits into `getOrCreateActiveSession`
  (its session lookup/creation half) and `unansweredFor` (its final
  `RETURN QUERY`); `ORDER BY RANDOM()` is modelled by an explicit `shuffle`
  parameter which theorems constrain to be a permutation.
* `sp_record_player_answers` returns `Except RecordError DBState`: a missing
  active session or unknown question makes the `INSERT` fail on a `NULL`
  key column and a duplicate `(player_id, question_id, session_id)` fails the
  primary key; in each case `execute_pg_procedure` rolls the transaction back,
  so an error leaves the state unchanged.
* the `AFTER INSERT` trigger `trg_update_game_sessions` /
  `fn_update_game_sessions` is inlined into `sp_record_player_answers`,
  exactly as it fires in the same transaction as the insert.
* `INTERVAL` arithmetic (`end_time - start_time`) is modelled over `Int`.
-/

/-- A row of the `game_sessions` table. -/
structure Session where
  session_id : Nat
  player_id : Nat
  start_time : Nat
  end_time : Option Nat
  questions_solved : Nat
  is_completed : Bool
  is_active : Bool
deriving DecidableEq

/-- A row of the `player_answers` table. -/
structure AnswerRow where
  player_id : Nat
  question_id : Nat
  session_id : Nat
  selected_answer : Char
  is_correct : Bool
  answered_at : Nat
deriving DecidableEq

/-- A row of the `high_scores` table. -/
structure HighScore where
  score_id : Nat
  player_id : Nat
  total_time : Int
  achieved_at : Nat
deriving DecidableEq

/-- The persistent state the engine manipulates.  `questions` is the
read-only `questions` table: pairs of question id and correct answer. -/
structure DBState where
  questions : List (Nat × Char)
  sessions : List Session
  answers : List AnswerRow
  high_scores : List HighScore
  nextSessionId : Nat
  clock : Nat
deriving DecidableEq

/-- The query `SELECT gs.session_id FROM game_sessions gs WHERE gs.player_id =
v_player_id AND gs.is_completed = FALSE AND is_active = TRUE` — plpgsql `SELECT INTO`
takes the first matching row. -/
def findActiveSession (st : DBState) (pid : Nat) : Option Session :=
  st.sessions.find? (fun s => s.player_id == pid && s.is_completed == false && s.is_active == true)

/-- The count `SELECT COUNT(*) FROM player_answers WHERE session_id = sid` (the one
recomputed by the trigger function `fn_update_game_sessions`). -/
def countBySession (ans : List AnswerRow) (sid : Nat) : Nat :=
  ans.countP (fun a => a.session_id == sid)

/-- The count `SELECT COUNT(*) FROM player_answers pa WHERE pa.player_id = pid
AND pa.session_id = sid`. -/
def countByPlayerSession (ans : List AnswerRow) (pid sid : Nat) : Nat :=
  ans.countP (fun a => a.player_id == pid && a.session_id == sid)

/-- Whether a `player_answers` row with the given primary key
`(player_id, question_id, session_id)` exists. -/
def hasAnswer (ans : List AnswerRow) (pid qid sid : Nat) : Bool :=
  ans.any (fun a => a.player_id == pid && a.question_id == qid && a.session_id == sid)

/-- The lookup `SELECT q.correct_answer FROM questions q WHERE q.question_id = qid`. -/
def lookupCorrect (qs : List (Nat × Char)) (qid : Nat) : Option Char :=
  (qs.find? (fun q => q.1 == qid)).map Prod.snd

/-- The aggregate `SELECT max(pa.answered_at) FROM player_answers pa WHERE
pa.session_id = sid`. -/
def maxAnsweredAt (ans : List AnswerRow) (sid : Nat) : Option Nat :=
  ((ans.filter (fun a => a.session_id == sid)).map (·.answered_at)).max?

/-- A fresh `game_sessions` row, with the column defaults of the
`CREATE TABLE` statement: `questions_solved 0`, `is_completed FALSE`,
`is_active TRUE`, `start_time clock_timestamp()`, `end_time NULL`. -/
def freshSession (sid pid t : Nat) : Session :=
  ⟨sid, pid, t, none, 0, false, true⟩

/-- The session lookup/creation half of `fn_get_unanswered_questions`
(the spec's `SessionManager.getOrCreateActiveSession`): return the active
session id if one exists, otherwise insert a new session row and return its
`SERIAL` id. -/
def getOrCreateActiveSession (st : DBState) (pid : Nat) : DBState × Nat :=
  match findActiveSession st pid with
  | some s => (st, s.session_id)
  | none =>
      ({ st with
          sessions := st.sessions ++ [freshSession st.nextSessionId pid st.clock],
          nextSessionId := st.nextSessionId + 1,
          clock := st.clock + 1 }, st.nextSessionId)

/-- The query `SELECT q.question_id, q.correct_answer FROM questions q WHERE
q.question_id NOT IN (SELECT pa.question_id FROM player_answers pa WHERE
pa.player_id = pid AND pa.session_id = sid)`. -/
def availableQuestions (st : DBState) (pid sid : Nat) : List (Nat × Char) :=
  st.questions.filter (fun q =>
    !(st.answers.any (fun a => a.player_id == pid && a.session_id == sid && a.question_id == q.1)))

/-- The `RETURN QUERY` of `fn_get_unanswered_questions`: the unanswered
questions of the session, `ORDER BY RANDOM()` (the `shuffle` parameter) and
`LIMIT (20 - questions_answered_count)`. -/
def unansweredFor (st : DBState) (pid sid : Nat)
    (shuffle : List (Nat × Char) → List (Nat × Char)) : List (Nat × Char) :=
  (shuffle (availableQuestions st pid sid)).take (20 - countByPlayerSession st.answers pid sid)

/-- The function `fn_get_unanswered_questions p_username`: get or create the active
session, then return its unanswered questions in random order. -/
def fn_get_unanswered_questions (st : DBState) (pid : Nat)
    (shuffle : List (Nat × Char) → List (Nat × Char)) : DBState × List (Nat × Char) :=
  let res := getOrCreateActiveSession st pid
  (res.1, unansweredFor res.1 pid res.2 shuffle)

/-- How `sp_record_player_answers` can fail: no active session or an unknown
question leave a `NULL` in a `NOT NULL` column of the `INSERT`, a repeated
`(player_id, question_id, session_id)` violates the primary key.  In every
case `execute_pg_procedure` rolls back, so the state is unchanged. -/
inductive RecordError where
  | unknownSession
  | unknownQuestion
  | duplicateAnswer
deriving DecidableEq

/-- The procedure `sp_record_player_answers p_username p_question_id p_selected_answer`,
with the `AFTER INSERT` trigger `fn_update_game_sessions` inlined: insert the
answer row with `is_correct = (p_selected_answer = correct)` and recompute
`questions_solved` of the touched session as the live answer count. -/
def sp_record_player_answers (st : DBState) (pid qid : Nat) (letter : Char) :
    Except RecordError DBState :=
  match findActiveSession st pid with
  | none => .error .unknownSession
  | some s =>
      match lookupCorrect st.questions qid with
      | none => .error .unknownQuestion
      | some c =>
          if hasAnswer st.answers pid qid s.session_id then .error .duplicateAnswer
          else
            let newAnswers := st.answers ++ [⟨pid, qid, s.session_id, letter, letter == c, st.clock⟩]
            .ok { st with
                  answers := newAnswers,
                  sessions := st.sessions.map (fun t =>
                    if t.session_id == s.session_id
                    then { t with questions_solved := countBySession newAnswers t.session_id }
                    else t),
                  clock := st.clock + 1 }

/-- A sequence of `sp_record_player_answers` calls, stopping at the first
error. -/
def recordMany (st : DBState) (pid : Nat) : List (Nat × Char) → Except RecordError DBState
  | [] => .ok st
  | (q, l) :: rest =>
      match sp_record_player_answers st pid q l with
      | .ok st' => recordMany st' pid rest
      | .error e => .error e

/-- The procedure `sp_completing_session p_username`: mark the active session completed and
inactive and set `end_time` to the latest `answered_at` of the session.  When
no active session exists, `v_session_id` is `NULL` and the `UPDATE` matches no
row, so the call is a no-op. -/
def sp_completing_session (st : DBState) (pid : Nat) : DBState :=
  match findActiveSession st pid with
  | none => st
  | some s =>
      { st with
        sessions := st.sessions.map (fun t =>
          if t.session_id == s.session_id
          then { t with is_completed := true, is_active := false,
                        end_time := maxAnsweredAt st.answers s.session_id }
          else t) }

/-- The procedure `sp_reset_player_answers p_username`: delete the answers of the player's
active session and mark that session inactive.  When no active session
exists, both the `DELETE` and the `UPDATE` match no row. -/
def sp_reset_player_answers (st : DBState) (pid : Nat) : DBState :=
  match findActiveSession st pid with
  | none => st
  | some s =>
      { st with
        answers := st.answers.filter (fun a =>
          !(a.player_id == pid && a.session_id == s.session_id)),
        sessions := st.sessions.map (fun t =>
          if t.session_id == s.session_id then { t with is_active := false } else t) }

/-- The `IF EXISTS ... UPDATE ... ELSE INSERT` body of `sp_update_high_scores`:
if a `high_scores` row for this score exists, replace its player, time and
timestamp only where `total_time > v_total_time`; otherwise insert the row. -/
def submitHighScore (hs : List HighScore) (score pid : Nat) (time : Int) (ts : Nat) :
    List HighScore :=
  if hs.any (fun r => r.score_id == score) then
    hs.map (fun r =>
      if r.score_id == score && decide (time < r.total_time)
      then ⟨score, pid, time, ts⟩ else r)
  else hs ++ [⟨score, pid, time, ts⟩]

/-- The query `SELECT gs.session_id, gs.end_time FROM game_sessions gs WHERE
gs.player_id = pid AND gs.is_completed = TRUE ORDER BY gs.start_time DESC
LIMIT 1` — a fold keeping the row with the largest `start_time`. -/
def latestCompletedSession (st : DBState) (pid : Nat) : Option Session :=
  (st.sessions.filter (fun s => s.player_id == pid && s.is_completed == true)).foldl
    (fun acc s =>
      match acc with
      | none => some s
      | some b => if b.start_time < s.start_time then some s else some b)
    none

/-- The count `SELECT COUNT(*) FROM player_answers pa WHERE pa.player_id =
pid AND pa.session_id = sid AND pa.is_correct = TRUE`. -/
def countCorrect (ans : List AnswerRow) (pid sid : Nat) : Nat :=
  ans.countP (fun a => a.player_id == pid && a.session_id == sid && a.is_correct == true)

/-- The procedure `sp_update_high_scores p_username`: pick the player's latest completed
session; if the player answered at least one question correctly and the
session has exactly 20 answer rows, insert/update the `high_scores` slot for
`score_id = correct_answers`.  A `NULL` `end_time` makes `v_total_time`
`NULL`: the guarded `UPDATE` then matches no row and the guarded `INSERT`
aborts on `NOT NULL`, so either way the state is unchanged. -/
def sp_update_high_scores (st : DBState) (pid : Nat) : DBState :=
  match latestCompletedSession st pid with
  | none => st
  | some s =>
      let correct := countCorrect st.answers pid s.session_id
      if 0 < correct ∧ countByPlayerSession st.answers pid s.session_id = 20 then
        match s.end_time with
        | none => st
        | some e =>
            { st with high_scores :=
                submitHighScore st.high_scores correct pid ((e : Int) - (s.start_time : Int)) e }
      else st

/-- The engine operations a caller can issue (the spec's SessionManager,
AnswerRecorder, GameFinalizer, LeaderboardUpdater entry points). -/
inductive Op where
  | getQuestions (pid : Nat)
  | record (pid qid : Nat) (letter : Char)
  | finalize (pid : Nat)
  | reset (pid : Nat)
  | updateHighScores (pid : Nat)

/-- Apply one operation; a failing `sp_record_player_answers` rolls back and
leaves the state unchanged. -/
def applyOp (st : DBState) : Op → DBState
  | .getQuestions pid => (getOrCreateActiveSession st pid).1
  | .record pid qid letter =>
      match sp_record_player_answers st pid qid letter with
      | .ok st' => st'
      | .error _ => st
  | .finalize pid => sp_completing_session st pid
  | .reset pid => sp_reset_player_answers st pid
  | .updateHighScores pid => sp_update_high_scores st pid

/-- The initial database state: empty tables, a given `questions` table,
`SERIAL` counter at 1. -/
def initState (qs : List (Nat × Char)) : DBState :=
  ⟨qs, [], [], [], 1, 0⟩

/-- States reachable from an initial state by engine operations. -/
inductive Reachable : DBState → Prop where
  | init (qs : List (Nat × Char)) : Reachable (initState qs)
  | step {st : DBState} (h : Reachable st) (op : Op) : Reachable (applyOp st op)

/-- The filter `WHERE ps.is_correct = TRUE` — the rows the statistics aggregations group. -/
def correctRows (ans : List AnswerRow) : List AnswerRow :=
  ans.filter (fun a => a.is_correct == true)

/-- The distinct question ids appearing among correct answers
(`GROUP BY ps.question_id` after the `is_correct = TRUE` filter). -/
def correctQids (ans : List AnswerRow) : List Nat :=
  ((correctRows ans).map (·.question_id)).dedup

/-- The count `COUNT(ps.player_id)` for one group of the `GROUP BY`. -/
def correctCountOf (ans : List AnswerRow) (q : Nat) : Nat :=
  ((correctRows ans).filter (fun a => a.question_id == q)).length

/-- The grouped rows `(question_id, COUNT(player_id))` of the statistics
aggregations. -/
def groupedCorrectCounts (ans : List AnswerRow) : List (Nat × Nat) :=
  (correctQids ans).map (fun q => (q, correctCountOf ans q))

/-- The function `fn_get_least_correctly_answered_question`: the grouped rows whose count
equals `MIN` of the grouped counts (`HAVING COUNT(ps.player_id) = (SELECT
MIN(m.correct_count) ...)`). -/
def fn_get_least_correctly_answered_question (ans : List AnswerRow) : List (Nat × Nat) :=
  match ((groupedCorrectCounts ans).map (·.2)).min? with
  | none => []
  | some m => (groupedCorrectCounts ans).filter (fun g => g.2 == m)

/-- The per-slot content of `submitHighScore`: one leaderboard submission
(player, total time, achieved-at). -/
structure Submission where
  player : Nat
  time : Int
  achieved_at : Nat
deriving DecidableEq

/-- Fold a sequence of submissions for one score bucket through
`submitHighScore`. -/
def submitAll (hs : List HighScore) (score : Nat) (l : List Submission) : List HighScore :=
  l.foldl (fun acc sub => submitHighScore acc score sub.player sub.time sub.achieved_at) hs

/-- The minimum submitted time of a sequence of submissions (junk value 0 on
the empty sequence, which theorems exclude). -/
def minTimeOf : List Submission → Int
  | [] => 0
  | x :: xs => (xs.map (·.time)).foldl min x.time

/-! ### Helper lemmas for the leaderboard slot algebra (claim C1) -/

/-- The per-slot effect of one submission: replace the stored submission only
when the new time is strictly smaller. -/
def slotStep (b x : Submission) : Submission :=
  if x.time < b.time then x else b

/-- The `high_scores` row a submission would occupy for a given score. -/
def slotRow (score : Nat) (sub : Submission) : HighScore :=
  ⟨score, sub.player, sub.time, sub.achieved_at⟩

theorem foldl_min_le (ts : List Int) (a : Int) : ts.foldl min a ≤ a := by
  induction ts generalizing a with
  | nil => simp
  | cons t ts ih => exact le_trans (ih (min a t)) (min_le_left a t)

theorem slotStep_time (b x : Submission) : (slotStep b x).time = min b.time x.time := by
  unfold slotStep
  rw [min_def]
  split
  · next h => rw [if_neg (by omega)]
  · next h => split <;> omega

theorem minTimeOf_cons_cons (x y : Submission) (ys : List Submission) :
    minTimeOf (x :: y :: ys) = minTimeOf (slotStep x y :: ys) := by
  simp only [minTimeOf, List.map_cons, List.foldl_cons, slotStep_time]

theorem minTimeOf_le_head (x : Submission) (xs : List Submission) :
    minTimeOf (x :: xs) ≤ x.time := by
  simpa [minTimeOf] using foldl_min_le (xs.map (·.time)) x.time

theorem findFirstMin (xs : List Submission) (x : Submission) :
    (x :: xs).find? (fun s => s.time == minTimeOf (x :: xs)) = some (xs.foldl slotStep x) := by
  induction xs generalizing x with
  | nil => simp [minTimeOf, List.find?_cons]
  | cons y ys ih =>
      have hM : minTimeOf (slotStep x y :: ys) = minTimeOf (x :: y :: ys) :=
        (minTimeOf_cons_cons x y ys).symm
      have hMle : minTimeOf (x :: y :: ys) ≤ min x.time y.time := by
        have h1 := minTimeOf_le_head (slotStep x y) ys
        rw [slotStep_time, hM] at h1
        exact h1
      have hMx : minTimeOf (x :: y :: ys) ≤ x.time :=
        le_trans hMle (min_le_left _ _)
      have hMy : minTimeOf (x :: y :: ys) ≤ y.time :=
        le_trans hMle (min_le_right _ _)
      have hkey : (x :: y :: ys).find? (fun s => s.time == minTimeOf (x :: y :: ys))
          = (slotStep x y :: ys).find? (fun s => s.time == minTimeOf (x :: y :: ys)) := by
        by_cases hx : x.time = minTimeOf (x :: y :: ys)
        · have hstep : slotStep x y = x := by
            unfold slotStep
            rw [if_neg (by omega)]
          rw [hstep]
          rw [List.find?_cons_of_pos _ (by simpa using hx),
              List.find?_cons_of_pos _ (by simpa using hx)]
        · by_cases hy : y.time < x.time
          · have hstep : slotStep x y = y := if_pos hy
            rw [hstep]
            rw [List.find?_cons_of_neg _ (by simpa using hx)]
          · have hstep : slotStep x y = x := if_neg hy
            rw [hstep]
            have hyne : y.time ≠ minTimeOf (x :: y :: ys) := by omega
            rw [List.find?_cons_of_neg _ (by simpa using hx),
                List.find?_cons_of_neg _ (by simpa using hyne),
                List.find?_cons_of_neg _ (by simpa using hx)]
      rw [hkey]
      have hrhs : (y :: ys).foldl slotStep x = ys.foldl slotStep (slotStep x y) := rfl
      rw [hrhs, ← hM]
      exact ih (slotStep x y)

theorem submitHighScore_fresh (hs : List HighScore) (S p : Nat) (t : Int) (ts : Nat)
    (h : ∀ r ∈ hs, r.score_id ≠ S) :
    submitHighScore hs S p t ts = hs ++ [⟨S, p, t, ts⟩] := by
  unfold submitHighScore
  rw [if_neg]
  intro hany
  rcases List.any_eq_true.mp hany with ⟨r, hr, hrs⟩
  exact h r hr (by simpa using hrs)

theorem submitHighScore_snoc (hs : List HighScore) (S : Nat) (b : Submission)
    (p : Nat) (t : Int) (ts : Nat) (h : ∀ r ∈ hs, r.score_id ≠ S) :
    submitHighScore (hs ++ [slotRow S b]) S p t ts
      = hs ++ [slotRow S (slotStep b ⟨p, t, ts⟩)] := by
  unfold submitHighScore
  rw [if_pos]
  · rw [List.map_append]
    congr 1
    · have : ∀ r ∈ hs,
          (if r.score_id == S && decide (t < r.total_time)
           then (⟨S, p, t, ts⟩ : HighScore) else r) = id r := by
        intro r hr
        rw [if_neg (by simp [h r hr])]
        rfl
      rw [List.map_congr_left this, List.map_id]
    · simp only [List.map_cons, List.map_nil, slotRow, slotStep]
      by_cases ht : t < b.time
      · rw [if_pos (by simp [ht])]
        rw [if_pos ht]
      · rw [if_neg (by simp [ht])]
        rw [if_neg ht]
  · apply List.any_eq_true.mpr
    exact ⟨slotRow S b, by simp, by simp [slotRow]⟩

theorem submitAll_snoc (S : Nat) (l : List Submission) :
    ∀ (hs : List HighScore) (b : Submission), (∀ r ∈ hs, r.score_id ≠ S) →
    submitAll (hs ++ [slotRow S b]) S l = hs ++ [slotRow S (l.foldl slotStep b)] := by
  induction l with
  | nil => intro hs b h; simp [submitAll]
  | cons x xs ih =>
      intro hs b h
      show submitAll (submitHighScore (hs ++ [slotRow S b]) S x.player x.time x.achieved_at) S xs
        = hs ++ [slotRow S ((x :: xs).foldl slotStep b)]
      rw [submitHighScore_snoc hs S b x.player x.time x.achieved_at h]
      have hx : (⟨x.player, x.time, x.achieved_at⟩ : Submission) = x := rfl
      rw [hx]
      exact ih hs (slotStep b x) h

theorem submitAll_structure (S : Nat) (hs : List HighScore) (x : Submission)
    (xs : List Submission) (h : ∀ r ∈ hs, r.score_id ≠ S) :
    submitAll hs S (x :: xs) = hs ++ [slotRow S (xs.foldl slotStep x)] := by
  show submitAll (submitHighScore hs S x.player x.time x.achieved_at) S xs
    = hs ++ [slotRow S (xs.foldl slotStep x)]
  rw [submitHighScore_fresh hs S x.player x.time x.achieved_at h]
  have hx : (⟨S, x.player, x.time, x.achieved_at⟩ : HighScore) = slotRow S x := rfl
  rw [hx]
  exact submitAll_snoc S xs hs x h

/-- C1: for every score bucket `S` and every finite sequence of leaderboard
submissions for `S`, after the sequence the slot for `S` holds the minimum
elapsed time among all submitted times, and the holding player is the
submitter who achieved that minimum, ties resolved in favour of the earlier
writer (the slot stores the first submission achieving the minimum time);
moreover a submission with an equal or slower time than the stored one causes
no mutation (and `submitHighScore` is total, so no error). -/
theorem C1_leaderboard_fastest_time (S : Nat) (hs : List HighScore) (l : List Submission)
    (hne : l ≠ []) (hS : ∀ r ∈ hs, r.score_id ≠ S) :
    (∃ sub : Submission,
        (submitAll hs S l).find? (fun r => r.score_id == S) = some (slotRow S sub) ∧
        l.find? (fun s => s.time == minTimeOf l) = some sub ∧
        sub ∈ l ∧ sub.time = minTimeOf l) ∧
    (∀ (hs₂ : List HighScore) (p : Nat) (t : Int) (ts : Nat),
        (∃ r ∈ hs₂, r.score_id = S) →
        (∀ r ∈ hs₂, r.score_id = S → r.total_time ≤ t) →
        submitHighScore hs₂ S p t ts = hs₂) := by
  constructor
  · match l, hne with
    | x :: xs, _ =>
        refine ⟨xs.foldl slotStep x, ?_, findFirstMin xs x, ?_, ?_⟩
        · rw [submitAll_structure S hs x xs hS, List.find?_append]
          have hnone : hs.find? (fun r => r.score_id == S) = none :=
            List.find?_eq_none.mpr (fun r hr => by simp [hS r hr])
          rw [hnone]
          simp [List.find?_cons, slotRow]
        · exact List.mem_of_find?_eq_some (findFirstMin xs x)
        · have := List.find?_some (findFirstMin xs x)
          simpa using this
  · intro hs₂ p t ts hex hall
    rcases hex with ⟨r0, hr0, hr0S⟩
    unfold submitHighScore
    rw [if_pos (List.any_eq_true.mpr ⟨r0, hr0, by simp [hr0S]⟩)]
    have hmap : ∀ r ∈ hs₂,
        (if r.score_id == S && decide (t < r.total_time)
         then (⟨S, p, t, ts⟩ : HighScore) else r) = id r := by
      intro r hr
      by_cases hrs : r.score_id = S
      · have hle := hall r hr hrs
        have hcond : ¬(r.score_id == S && decide (t < r.total_time)) = true := by
          simp only [hrs, beq_self_eq_true, Bool.true_and, decide_eq_true_eq]
          omega
        rw [if_neg hcond]
        rfl
      · rw [if_neg (by simp [hrs])]
        rfl
    exact (List.map_congr_left hmap).trans (List.map_id hs₂)

/-- Witness for C1: two submissions for score bucket 5 — player 1 in 190s
then player 2 in 170s — leave the slot holding player 2's faster time. -/
theorem C1_witness :
    (submitAll [] 5 [⟨1, 190, 100⟩, ⟨2, 170, 200⟩]).find? (fun r => r.score_id == 5)
      = some (slotRow 5 ⟨2, 170, 200⟩) := by
  obtain ⟨⟨sub, h1, h2, _, _⟩, _⟩ :=
    C1_leaderboard_fastest_time 5 [] [⟨1, 190, 100⟩, ⟨2, 170, 200⟩]
      (by decide) (by simp)
  have hval : ([⟨1, 190, 100⟩, ⟨2, 170, 200⟩] : List Submission).find?
      (fun s => s.time == minTimeOf [⟨1, 190, 100⟩, ⟨2, 170, 200⟩]) = some ⟨2, 170, 200⟩ := by
    decide
  rw [h2] at hval
  rw [Option.some.inj hval] at h1
  exact h1

/-! ### Helper lemmas for the statistics aggregation (claim C8) -/

theorem nat_min?_spec {l : List Nat} {m : Nat} (h : l.min? = some m) :
    m ∈ l ∧ ∀ x ∈ l, m ≤ x := by
  rw [List.min?_eq_some_iff (fun a => le_refl a) (fun a b => min_choice a b)
    (fun a b c => le_min_iff)] at h
  exact h

theorem correctCountOf_pos (ans : List AnswerRow) (q : Nat) :
    0 < correctCountOf ans q ↔ q ∈ correctQids ans := by
  unfold correctCountOf correctQids
  rw [← List.countP_eq_length_filter, List.countP_pos_iff]
  simp [List.mem_dedup, List.mem_map]

theorem mem_groupedCorrectCounts (ans : List AnswerRow) (q c : Nat) :
    (q, c) ∈ groupedCorrectCounts ans ↔ q ∈ correctQids ans ∧ c = correctCountOf ans q := by
  simp only [groupedCorrectCounts, List.mem_map, Prod.mk.injEq]
  constructor
  · rintro ⟨q', hq', rfl, rfl⟩
    exact ⟨hq', rfl⟩
  · rintro ⟨hq, rfl⟩
    exact ⟨q, hq, rfl, rfl⟩

theorem countOf_mem_grouped (ans : List AnswerRow) (q : Nat) (hq : q ∈ correctQids ans) :
    correctCountOf ans q ∈ (groupedCorrectCounts ans).map (·.2) := by
  apply List.mem_map.mpr
  exact ⟨(q, correctCountOf ans q), (mem_groupedCorrectCounts ans q _).mpr ⟨hq, rfl⟩, rfl⟩

/-- C8: the least-correctly-answered-question query returns exactly the
questions whose correct-answer count equals the minimum, among questions with
at least one correct answer recorded (the `is_correct = TRUE` filter precedes
the grouping); in particular every tied question is returned, and each
returned pair carries that question's correct-answer count. -/
theorem C8_least_correct_ties (ans : List AnswerRow) :
    (∀ q : Nat, (∃ c, (q, c) ∈ fn_get_least_correctly_answered_question ans) ↔
        (0 < correctCountOf ans q ∧
         ∀ q' : Nat, 0 < correctCountOf ans q' → correctCountOf ans q ≤ correctCountOf ans q')) ∧
    (∀ q c, (q, c) ∈ fn_get_least_correctly_answered_question ans → c = correctCountOf ans q) := by
  unfold fn_get_least_correctly_answered_question
  cases hmin : ((groupedCorrectCounts ans).map (·.2)).min? with
  | none =>
      have hnil : groupedCorrectCounts ans = [] := by
        have := List.min?_eq_none_iff.mp hmin
        exact List.map_eq_nil_iff.mp this
      constructor
      · intro q
        constructor
        · rintro ⟨c, hc⟩
          exact absurd hc (by simp)
        · rintro ⟨hpos, -⟩
          have hq := (correctCountOf_pos ans q).mp hpos
          have : (q, correctCountOf ans q) ∈ groupedCorrectCounts ans :=
            (mem_groupedCorrectCounts ans q _).mpr ⟨hq, rfl⟩
          rw [hnil] at this
          exact absurd this (by simp)
      · intro q c hc
        exact absurd hc (by simp)
  | some m =>
      obtain ⟨hmem, hle⟩ := nat_min?_spec hmin
      constructor
      · intro q
        constructor
        · rintro ⟨c, hc⟩
          have hc' := List.mem_filter.mp hc
          obtain ⟨hg, hcm⟩ := hc'
          have hcm : c = m := by simpa using hcm
          obtain ⟨hq, hcq⟩ := (mem_groupedCorrectCounts ans q c).mp hg
          refine ⟨(correctCountOf_pos ans q).mpr hq, ?_⟩
          intro q' hq'
          have hq'mem := (correctCountOf_pos ans q').mp hq'
          have := hle _ (countOf_mem_grouped ans q' hq'mem)
          omega
        · rintro ⟨hpos, hminimal⟩
          have hq := (correctCountOf_pos ans q).mp hpos
          -- the minimum m is achieved by some grouped question q₀
          obtain ⟨⟨q₀, c₀⟩, hg₀, hc₀⟩ := List.mem_map.mp hmem
          obtain ⟨hq₀, hcq₀⟩ := (mem_groupedCorrectCounts ans q₀ c₀).mp hg₀
          have hq₀pos : 0 < correctCountOf ans q₀ := (correctCountOf_pos ans q₀).mpr hq₀
          have hc₀' : c₀ = m := hc₀
          have h1 : correctCountOf ans q ≤ m :=
            le_of_le_of_eq (hminimal q₀ hq₀pos) (hcq₀.symm.trans hc₀')
          have h2 : m ≤ correctCountOf ans q := hle _ (countOf_mem_grouped ans q hq)
          refine ⟨correctCountOf ans q, List.mem_filter.mpr ⟨?_, ?_⟩⟩
          · exact (mem_groupedCorrectCounts ans q _).mpr ⟨hq, rfl⟩
          · exact beq_iff_eq.mpr (le_antisymm h1 h2)
      · intro q c hc
        have hg := (List.mem_filter.mp hc).1
        exact ((mem_groupedCorrectCounts ans q c).mp hg).2

/-- The dataset of the C8 tie scenario: questions 1 and 2 each answered
correctly once, question 3 twice. -/
def tieDataset : List AnswerRow :=
  [⟨7, 1, 1, 'a', true, 0⟩, ⟨7, 2, 1, 'b', true, 1⟩,
   ⟨7, 3, 1, 'c', true, 2⟩, ⟨8, 3, 2, 'c', true, 3⟩]

/-- Witness for C8: over a dataset where questions 1 and 2 are tied for
fewest correct answers (one each) while question 3 has two, both tied
questions are returned. -/
theorem C8_witness :
    (∃ c, (1, c) ∈ fn_get_least_correctly_answered_question tieDataset) ∧
    (∃ c, (2, c) ∈ fn_get_least_correctly_answered_question tieDataset) := by
  have h1 : correctCountOf tieDataset 1 = 1 := by decide
  have h2 : correctCountOf tieDataset 2 = 1 := by decide
  constructor
  · refine ((C8_least_correct_ties tieDataset).1 1).mpr ⟨by decide, ?_⟩
    intro q' h
    omega
  · refine ((C8_least_correct_ties tieDataset).1 2).mpr ⟨by decide, ?_⟩
    intro q' h
    omega

/-! ### Helper lemmas about `sp_record_player_answers` and session lookups -/

/-- Lookup of the active session commutes with a per-row update that
preserves the player, completion and activity columns. -/
theorem find?_active_map (sessions : List Session) (pid : Nat) (f : Session → Session)
    (hp : ∀ t, (f t).player_id = t.player_id)
    (hc : ∀ t, (f t).is_completed = t.is_completed)
    (ha : ∀ t, (f t).is_active = t.is_active) :
    (sessions.map f).find?
        (fun s => s.player_id == pid && s.is_completed == false && s.is_active == true)
      = (sessions.find?
          (fun s => s.player_id == pid && s.is_completed == false && s.is_active == true)).map f := by
  rw [List.find?_map]
  have hpred : ((fun s : Session =>
        s.player_id == pid && s.is_completed == false && s.is_active == true) ∘ f)
      = (fun s : Session =>
        s.player_id == pid && s.is_completed == false && s.is_active == true) := by
    funext t
    simp only [Function.comp_apply, hp t, hc t, ha t]
  rw [hpred]

/-- Evaluation of `sp_record_player_answers` on the successful path. -/
theorem record_eq_ok (st : DBState) (pid qid : Nat) (l : Char) (s : Session) (c : Char)
    (hfind : findActiveSession st pid = some s)
    (hlook : lookupCorrect st.questions qid = some c)
    (hdup : hasAnswer st.answers pid qid s.session_id = false) :
    sp_record_player_answers st pid qid l = .ok { st with
      answers := st.answers ++ [⟨pid, qid, s.session_id, l, l == c, st.clock⟩],
      sessions := st.sessions.map (fun t =>
        if t.session_id == s.session_id
        then { t with questions_solved :=
            (countBySession (st.answers ++ [⟨pid, qid, s.session_id, l, l == c, st.clock⟩])
              t.session_id) }
        else t),
      clock := st.clock + 1 } := by
  unfold sp_record_player_answers
  rw [hfind, hlook]
  simp [hdup]

/-- Evaluation of `sp_record_player_answers` on the duplicate-key path. -/
theorem record_eq_dup (st : DBState) (pid qid : Nat) (l : Char) (s : Session) (c : Char)
    (hfind : findActiveSession st pid = some s)
    (hlook : lookupCorrect st.questions qid = some c)
    (hdup : hasAnswer st.answers pid qid s.session_id = true) :
    sp_record_player_answers st pid qid l = .error .duplicateAnswer := by
  unfold sp_record_player_answers
  rw [hfind, hlook]
  simp [hdup]

/-- Evaluation of `sp_record_player_answers` on the unknown-question path. -/
theorem record_eq_noq (st : DBState) (pid qid : Nat) (l : Char) (s : Session)
    (hfind : findActiveSession st pid = some s)
    (hlook : lookupCorrect st.questions qid = none) :
    sp_record_player_answers st pid qid l = .error .unknownQuestion := by
  unfold sp_record_player_answers
  rw [hfind, hlook]

/-- Evaluation of `sp_record_player_answers` with no active session. -/
theorem record_eq_nosession (st : DBState) (pid qid : Nat) (l : Char)
    (hfind : findActiveSession st pid = none) :
    sp_record_player_answers st pid qid l = .error .unknownSession := by
  unfold sp_record_player_answers
  rw [hfind]

/-- The exact shape of the state produced by a successful
`sp_record_player_answers` call. -/
theorem record_ok_spec (st : DBState) (pid qid : Nat) (l : Char) (st' : DBState) (s : Session)
    (hfind : findActiveSession st pid = some s)
    (hok : sp_record_player_answers st pid qid l = .ok st') :
    ∃ c, lookupCorrect st.questions qid = some c ∧
      hasAnswer st.answers pid qid s.session_id = false ∧
      st'.answers = st.answers ++ [⟨pid, qid, s.session_id, l, l == c, st.clock⟩] ∧
      st'.sessions = st.sessions.map (fun t =>
        if t.session_id == s.session_id
        then { t with questions_solved :=
                (countBySession (st.answers ++ [⟨pid, qid, s.session_id, l, l == c, st.clock⟩])
                  t.session_id) }
        else t) ∧
      st'.questions = st.questions ∧ st'.high_scores = st.high_scores ∧
      st'.clock = st.clock + 1 ∧ st'.nextSessionId = st.nextSessionId := by
  cases hlook : lookupCorrect st.questions qid with
  | none =>
      rw [record_eq_noq st pid qid l s hfind hlook] at hok
      exact absurd hok (by simp)
  | some c =>
      cases hdup : hasAnswer st.answers pid qid s.session_id with
      | true =>
          rw [record_eq_dup st pid qid l s c hfind hlook hdup] at hok
          exact absurd hok (by simp)
      | false =>
          rw [record_eq_ok st pid qid l s c hfind hlook hdup] at hok
          have hok' := (Except.ok.injEq _ _).mp hok
          refine ⟨c, rfl, rfl, ?_, ?_, ?_, ?_, ?_, ?_⟩ <;> rw [← hok']

/-- C7: when `sp_record_player_answers` runs for a player who has no session
with `is_completed = false` and `is_active = true`, the call fails with the
unknown-session error and never yields a post-state, so no answer row is
inserted (the transaction rolls back). -/
theorem C7_record_unknown_session (st : DBState) (pid qid : Nat) (letter : Char)
    (hfind : findActiveSession st pid = none) :
    sp_record_player_answers st pid qid letter = .error .unknownSession ∧
    ∀ st' : DBState, sp_record_player_answers st pid qid letter ≠ .ok st' := by
  refine ⟨record_eq_nosession st pid qid letter hfind, ?_⟩
  intro st' hcontra
  rw [record_eq_nosession st pid qid letter hfind] at hcontra
  exact absurd hcontra (by simp)

/-- Witness for C7: recording against the empty database errors out. -/
theorem C7_witness :
    sp_record_player_answers (initState []) 1 1 'a' = .error .unknownSession :=
  (C7_record_unknown_session (initState []) 1 1 'a' rfl).1

/-- C5: finalizing a player's active session (in particular one with
`questions_solved = 20`) marks every row of that session id completed and
inactive with `end_time` the maximum `answered_at` of the session's answers;
and calling `sp_completing_session` when the player has no active session
mutates nothing. -/
theorem C5_finalize_completes_session (st : DBState) (pid : Nat) (s : Session)
    (hfind : findActiveSession st pid = some s)
    (hsolved : s.questions_solved = 20) :
    (∀ t ∈ (sp_completing_session st pid).sessions, t.session_id = s.session_id →
        t.is_completed = true ∧ t.is_active = false ∧
        t.end_time = maxAnsweredAt st.answers s.session_id) ∧
    (∀ (st₂ : DBState) (pid₂ : Nat), findActiveSession st₂ pid₂ = none →
        sp_completing_session st₂ pid₂ = st₂) := by
  constructor
  · intro t ht hts
    unfold sp_completing_session at ht
    rw [hfind] at ht
    simp only [List.mem_map] at ht
    obtain ⟨t₀, ht₀, hft⟩ := ht
    by_cases hid : t₀.session_id == s.session_id
    · rw [if_pos hid] at hft
      rw [← hft]
      exact ⟨rfl, rfl, rfl⟩
    · rw [if_neg hid] at hft
      rw [← hft] at hts
      exact absurd (beq_iff_eq.mpr hts) hid
  · intro st₂ pid₂ hnone
    unfold sp_completing_session
    rw [hnone]

/-- The C5 scenario state: player 7 owns active session 1 with
`questions_solved = 20` and one answer at time 5. -/
def finalizeState : DBState :=
  ⟨[], [⟨1, 7, 0, none, 20, false, true⟩], [⟨7, 3, 1, 'a', true, 5⟩], [], 2, 6⟩

/-- Witness for C5: finalizing `finalizeState` for player 7 completes and
deactivates session 1 and stamps `end_time` with the latest answer time. -/
theorem C5_witness :
    (⟨1, 7, 0, some 5, 20, true, false⟩ : Session).is_completed = true ∧
    (⟨1, 7, 0, some 5, 20, true, false⟩ : Session).is_active = false ∧
    (⟨1, 7, 0, some 5, 20, true, false⟩ : Session).end_time
      = maxAnsweredAt finalizeState.answers 1 :=
  (C5_finalize_completes_session finalizeState 7 ⟨1, 7, 0, none, 20, false, true⟩ rfl rfl).1
    ⟨1, 7, 0, some 5, 20, true, false⟩ (by decide) rfl

/-- C10: `sp_update_high_scores` writes to the leaderboard only when the
selected completed session has a positive correct-answer count and exactly 20
answer rows; whenever that session's answer count differs from 20 the whole
state — in particular the `high_scores` table — is left unchanged. -/
theorem C10_high_scores_requires_full_session :
    (∀ (st : DBState) (pid : Nat) (s : Session), latestCompletedSession st pid = some s →
        countByPlayerSession st.answers pid s.session_id ≠ 20 →
        sp_update_high_scores st pid = st) ∧
    (∀ (st : DBState) (pid : Nat), sp_update_high_scores st pid ≠ st →
        ∃ s, latestCompletedSession st pid = some s ∧
          0 < countCorrect st.answers pid s.session_id ∧
          countByPlayerSession st.answers pid s.session_id = 20) := by
  constructor
  · intro st pid s h h20
    unfold sp_update_high_scores
    rw [h]
    simp only
    rw [if_neg (fun hg => h20 hg.2)]
  · intro st pid hne
    unfold sp_update_high_scores at hne
    cases h : latestCompletedSession st pid with
    | none => rw [h] at hne; exact absurd rfl hne
    | some s =>
        rw [h] at hne
        simp only at hne
        by_cases hg : 0 < countCorrect st.answers pid s.session_id ∧
            countByPlayerSession st.answers pid s.session_id = 20
        · exact ⟨s, rfl, hg.1, hg.2⟩
        · rw [if_neg hg] at hne
          exact absurd rfl hne

/-- The C10 scenario state: player 7's completed session 1 has one correct
answer but only one answer row (fewer than 20). -/
def partialSessionState : DBState :=
  ⟨[], [⟨1, 7, 0, some 9, 5, true, false⟩], [⟨7, 1, 1, 'a', true, 5⟩],
   [⟨5, 9, 100, 50⟩], 2, 10⟩

/-- Witness for C10: updating high scores for a session with a positive
correct count but fewer than 20 answers leaves the state unchanged. -/
theorem C10_witness :
    sp_update_high_scores partialSessionState 7 = partialSessionState :=
  C10_high_scores_requires_full_session.1 partialSessionState 7
    ⟨1, 7, 0, some 9, 5, true, false⟩ rfl (by decide)

/-- C4: after a successful `sp_record_player_answers` call for
`(player, question, session)`, a second call with the same triple fails with
the duplicate-answer (primary-key) error and yields no post-state, exactly
one answer row for the triple exists, and the first call's row is present
with its original columns. -/
theorem C4_duplicate_record_errors (st : DBState) (pid qid : Nat) (l l₂ : Char)
    (st' : DBState) (s : Session)
    (hfind : findActiveSession st pid = some s)
    (hok : sp_record_player_answers st pid qid l = .ok st') :
    sp_record_player_answers st' pid qid l₂ = .error .duplicateAnswer ∧
    (st'.answers.filter (fun a =>
        a.player_id == pid && a.question_id == qid && a.session_id == s.session_id)).length = 1 ∧
    (∃ c, lookupCorrect st.questions qid = some c ∧
        (⟨pid, qid, s.session_id, l, l == c, st.clock⟩ : AnswerRow) ∈ st'.answers) := by
  obtain ⟨c, hlook, hdup, hans, hsess, hq, -, -, -⟩ :=
    record_ok_spec st pid qid l st' s hfind hok
  have hfind' : findActiveSession st' pid = some
      (if s.session_id == s.session_id
       then { s with questions_solved :=
          (countBySession (st.answers ++ [⟨pid, qid, s.session_id, l, l == c, st.clock⟩])
            s.session_id) }
       else s) := by
    unfold findActiveSession
    rw [hsess, find?_active_map _ pid _ ?_ ?_ ?_]
    · rw [show st.sessions.find?
          (fun s => s.player_id == pid && s.is_completed == false && s.is_active == true)
          = some s from hfind]
      rfl
    · intro t; by_cases h : t.session_id == s.session_id <;> simp [h]
    · intro t; by_cases h : t.session_id == s.session_id <;> simp [h]
    · intro t; by_cases h : t.session_id == s.session_id <;> simp [h]
  rw [if_pos (by simp)] at hfind'
  refine ⟨?_, ?_, c, hlook, ?_⟩
  · apply record_eq_dup st' pid qid l₂ _ c hfind'
    · rw [hq]
      exact hlook
    · unfold hasAnswer
      rw [hans]
      simp
  · rw [hans, List.filter_append]
    have h1 : st.answers.filter (fun a =>
        a.player_id == pid && a.question_id == qid && a.session_id == s.session_id) = [] := by
      rw [List.filter_eq_nil_iff]
      intro a ha
      have := List.any_eq_false.mp hdup a ha
      simpa using this
    rw [h1]
    simp
  · rw [hans]
    simp

/-- The C4/C2 scenario state: one question, player 7 with a fresh active
session 1. -/
def freshGameState : DBState :=
  ⟨[(1, 'a')], [⟨1, 7, 0, none, 0, false, true⟩], [], [], 2, 3⟩

/-- The state after recording question 1 with answer 'b' in
`freshGameState`. -/
def freshGameState' : DBState :=
  ⟨[(1, 'a')], [⟨1, 7, 0, none, 1, false, true⟩], [⟨7, 1, 1, 'b', false, 3⟩], [], 2, 4⟩

/-- Witness for C4: re-recording question 1 for player 7 after a successful
recording fails with the duplicate-answer error. -/
theorem C4_witness :
    sp_record_player_answers freshGameState' 7 1 'c' = .error .duplicateAnswer :=
  (C4_duplicate_record_errors freshGameState 7 1 'b' 'c' freshGameState'
    ⟨1, 7, 0, none, 0, false, true⟩ rfl rfl).1

/-! ### Reachability invariants of the engine state -/

/-- Session ids are unique and below the `SERIAL` counter. -/
def sessionIdsOk (st : DBState) : Prop :=
  (st.sessions.map (·.session_id)).Nodup ∧
  ∀ s ∈ st.sessions, s.session_id < st.nextSessionId

/-- No session is simultaneously active and completed (completion always
clears activity). -/
def activeNotCompleted (st : DBState) : Prop :=
  ∀ s ∈ st.sessions, s.is_active = true → s.is_completed = false

/-- The claim C3 invariant: at most one active session row per player. -/
def oneActivePerPlayer (st : DBState) : Prop :=
  ∀ pid : Nat, st.sessions.countP (fun s => s.player_id == pid && s.is_active == true) ≤ 1

/-- Every answer row belongs to an existing session of the same player. -/
def answersOwned (st : DBState) : Prop :=
  ∀ a ∈ st.answers, ∃ s ∈ st.sessions,
    s.session_id = a.session_id ∧ s.player_id = a.player_id

/-- Every active session's `questions_solved` equals its live answer count
(maintained by the `AFTER INSERT` trigger; resets deactivate the session). -/
def activeSolvedMatches (st : DBState) : Prop :=
  ∀ s ∈ st.sessions, s.is_active = true →
    s.questions_solved = countBySession st.answers s.session_id

/-- The conjunction of all engine-state invariants. -/
def EngineInv (st : DBState) : Prop :=
  sessionIdsOk st ∧ activeNotCompleted st ∧ oneActivePerPlayer st ∧
  answersOwned st ∧ activeSolvedMatches st

theorem inv_initState (qs : List (Nat × Char)) : EngineInv (initState qs) := by
  refine ⟨⟨by simp [initState], by simp [initState]⟩, ?_, ?_, ?_, ?_⟩ <;>
    intro x <;> simp [initState, oneActivePerPlayer, countBySession] at *

/-- The invariant `EngineInv` only depends on the sessions, answers and `SERIAL` counter. -/
theorem inv_of_fields_eq (st st' : DBState) (h : EngineInv st)
    (hs : st'.sessions = st.sessions) (ha : st'.answers = st.answers)
    (hn : st'.nextSessionId = st.nextSessionId) : EngineInv st' := by
  obtain ⟨⟨h1a, h1b⟩, h2, h3, h4, h5⟩ := h
  exact ⟨⟨by rw [hs]; exact h1a, by rw [hs, hn]; exact h1b⟩,
    by unfold activeNotCompleted; rw [hs]; exact h2,
    by unfold oneActivePerPlayer; rw [hs]; exact h3,
    by unfold answersOwned; rw [hs, ha]; exact h4,
    by unfold activeSolvedMatches; rw [hs, ha]; exact h5⟩

theorem no_active_of_find_none (st : DBState) (pid : Nat)
    (hfind : findActiveSession st pid = none) (hanc : activeNotCompleted st) :
    st.sessions.countP (fun s => s.player_id == pid && s.is_active == true) = 0 := by
  rw [List.countP_eq_zero]
  intro s hs hpred
  have hnot := List.find?_eq_none.mp hfind s hs
  simp only [Bool.and_eq_true, beq_iff_eq] at hpred hnot
  exact hnot ⟨⟨hpred.1, hanc s hs hpred.2⟩, hpred.2⟩

theorem countBySession_next_zero (st : DBState)
    (hown : answersOwned st) (hbound : ∀ s ∈ st.sessions, s.session_id < st.nextSessionId) :
    countBySession st.answers st.nextSessionId = 0 := by
  rw [countBySession, List.countP_eq_zero]
  intro a ha hpred
  obtain ⟨s₀, hs₀, hid, -⟩ := hown a ha
  have := hbound s₀ hs₀
  simp only [beq_iff_eq] at hpred
  omega

theorem inv_getOrCreate (st : DBState) (pid : Nat) (h : EngineInv st) :
    EngineInv (getOrCreateActiveSession st pid).1 := by
  cases hfind : findActiveSession st pid with
  | some s =>
      unfold getOrCreateActiveSession
      rw [hfind]
      exact h
  | none =>
      unfold getOrCreateActiveSession
      rw [hfind]
      obtain ⟨⟨hids, hbound⟩, hanc, hone, hown, hsol⟩ := h
      refine ⟨⟨?_, ?_⟩, ?_, ?_, ?_, ?_⟩
      · simp only [List.map_append, List.map_cons, List.map_nil]
        rw [List.nodup_append]
        refine ⟨hids, List.nodup_singleton _, ?_⟩
        intro x hx
        rcases List.mem_map.mp hx with ⟨t, ht, rfl⟩
        have := hbound t ht
        simp only [List.mem_singleton, freshSession]
        omega
      · intro t ht
        rcases List.mem_append.mp ht with h1 | h1
        · have := hbound t h1
          simp only
          omega
        · simp only [List.mem_singleton] at h1
          rw [h1]
          simp [freshSession]
      · intro t ht hact
        rcases List.mem_append.mp ht with h1 | h1
        · exact hanc t h1 hact
        · simp only [List.mem_singleton] at h1
          rw [h1]
          rfl
      · intro p
        simp only [List.countP_append]
        by_cases hp : p = pid
        · subst hp
          rw [no_active_of_find_none st p hfind hanc]
          simp [List.countP_cons, freshSession]
        · have hfreshpred : ((freshSession st.nextSessionId pid st.clock).player_id == p &&
              (freshSession st.nextSessionId pid st.clock).is_active == true) = false := by
            simp [freshSession]
            omega
          rw [List.countP_cons]
          rw [hfreshpred]
          simpa using hone p
      · intro a ha
        obtain ⟨s₀, hs₀, h1, h2⟩ := hown a ha
        exact ⟨s₀, List.mem_append_left _ hs₀, h1, h2⟩
      · intro t ht hact
        rcases List.mem_append.mp ht with h1 | h1
        · exact hsol t h1 hact
        · simp only [List.mem_singleton] at h1
          rw [h1]
          exact (countBySession_next_zero st hown hbound).symm

theorem map_sessions_ids (f : Session → Session)
    (hid : ∀ t, (f t).session_id = t.session_id) (l : List Session) :
    (l.map f).map (·.session_id) = l.map (·.session_id) := by
  rw [List.map_map]
  exact List.map_congr_left (fun t _ => hid t)

theorem countP_map_pred (f : Session → Session) (p : Session → Bool)
    (h : ∀ t, p (f t) = p t) (l : List Session) :
    (l.map f).countP p = l.countP p := by
  rw [List.countP_map]
  exact List.countP_congr (fun t _ => by rw [Function.comp_apply, h t])

theorem countP_map_le (f : Session → Session) (p : Session → Bool)
    (h : ∀ t, p (f t) = true → p t = true) (l : List Session) :
    (l.map f).countP p ≤ l.countP p := by
  rw [List.countP_map]
  exact List.countP_mono_left (fun t _ hpt => h t hpt)

theorem inv_record (st : DBState) (pid qid : Nat) (letter : Char) (st' : DBState)
    (hres : sp_record_player_answers st pid qid letter = .ok st') (h : EngineInv st) :
    EngineInv st' := by
  obtain ⟨⟨hids, hbound⟩, hanc, hone, hown, hsol⟩ := h
  cases hfind : findActiveSession st pid with
  | none =>
      rw [record_eq_nosession st pid qid letter hfind] at hres
      exact absurd hres (by simp)
  | some s =>
      obtain ⟨c, hlook, hdup, hans, hsess, hq, hhs, hclock, hnext⟩ :=
        record_ok_spec st pid qid letter st' s hfind hres
      have hsmem : s ∈ st.sessions := List.mem_of_find?_eq_some hfind
      have hspid : s.player_id = pid := by
        have := List.find?_some hfind
        simp only [Bool.and_eq_true, beq_iff_eq] at this
        exact this.1.1
      have hidp : ∀ t : Session,
          ((if t.session_id == s.session_id
            then { t with questions_solved :=
                (countBySession (st.answers ++
                  [⟨pid, qid, s.session_id, letter, letter == c, st.clock⟩]) t.session_id) }
            else t) : Session).session_id = t.session_id := by
        intro t
        by_cases ht : t.session_id == s.session_id <;> simp [ht]
      have hplp : ∀ t : Session,
          ((if t.session_id == s.session_id
            then { t with questions_solved :=
                (countBySession (st.answers ++
                  [⟨pid, qid, s.session_id, letter, letter == c, st.clock⟩]) t.session_id) }
            else t) : Session).player_id = t.player_id := by
        intro t
        by_cases ht : t.session_id == s.session_id <;> simp [ht]
      have hactp : ∀ t : Session,
          ((if t.session_id == s.session_id
            then { t with questions_solved :=
                (countBySession (st.answers ++
                  [⟨pid, qid, s.session_id, letter, letter == c, st.clock⟩]) t.session_id) }
            else t) : Session).is_active = t.is_active := by
        intro t
        by_cases ht : t.session_id == s.session_id <;> simp [ht]
      have hcomp : ∀ t : Session,
          ((if t.session_id == s.session_id
            then { t with questions_solved :=
                (countBySession (st.answers ++
                  [⟨pid, qid, s.session_id, letter, letter == c, st.clock⟩]) t.session_id) }
            else t) : Session).is_completed = t.is_completed := by
        intro t
        by_cases ht : t.session_id == s.session_id <;> simp [ht]
      refine ⟨⟨?_, ?_⟩, ?_, ?_, ?_, ?_⟩
      · rw [hsess, map_sessions_ids _ hidp]
        exact hids
      · intro t ht
        rw [hsess] at ht
        rcases List.mem_map.mp ht with ⟨t₀, ht₀, hft⟩
        rw [← hft, hidp t₀, hnext]
        exact hbound t₀ ht₀
      · intro t ht hact
        rw [hsess] at ht
        rcases List.mem_map.mp ht with ⟨t₀, ht₀, hft⟩
        rw [← hft] at hact ⊢
        rw [hactp t₀] at hact
        rw [hcomp t₀]
        exact hanc t₀ ht₀ hact
      · intro p
        rw [hsess, countP_map_pred _ _ (fun t => by rw [hplp t, hactp t]) _]
        exact hone p
      · intro a ha
        rw [hans] at ha
        rcases List.mem_append.mp ha with h1 | h1
        · obtain ⟨s₀, hs₀, hid0, hpl0⟩ := hown a h1
          rw [hsess]
          refine ⟨_, List.mem_map_of_mem _ hs₀, ?_, ?_⟩
          · rw [hidp s₀]
            exact hid0
          · rw [hplp s₀]
            exact hpl0
        · simp only [List.mem_singleton] at h1
          subst h1
          rw [hsess]
          refine ⟨_, List.mem_map_of_mem _ hsmem, ?_, ?_⟩
          · rw [hidp s]
          · rw [hplp s]
            exact hspid
      · intro t ht hact
        rw [hsess] at ht
        rcases List.mem_map.mp ht with ⟨t₀, ht₀, hft⟩
        by_cases hmatch : t₀.session_id == s.session_id
        · rw [← hft, if_pos hmatch]
          rw [hans]
        · rw [← hft, if_neg hmatch]
          rw [← hft, hactp t₀] at hact
          have hbase := hsol t₀ ht₀ hact
          rw [hans, countBySession, List.countP_append, ← countBySession]
          have hrow : (List.countP (fun a => a.session_id == t₀.session_id)
              [(⟨pid, qid, s.session_id, letter, letter == c, st.clock⟩ : AnswerRow)]) = 0 := by
            simp only [List.countP_cons, List.countP_nil]
            have : ¬(s.session_id == t₀.session_id) = true := by
              simp only [beq_iff_eq] at hmatch ⊢
              omega
            simp [this]
          rw [hrow]
          simpa using hbase

theorem completing_eq (st : DBState) (pid : Nat) (s : Session)
    (hfind : findActiveSession st pid = some s) :
    sp_completing_session st pid = { st with sessions := st.sessions.map (fun t =>
      if t.session_id == s.session_id
      then { t with
              is_completed := true,
              is_active := false,
              end_time := maxAnsweredAt st.answers s.session_id }
      else t) } := by
  unfold sp_completing_session
  rw [hfind]

theorem reset_eq (st : DBState) (pid : Nat) (s : Session)
    (hfind : findActiveSession st pid = some s) :
    sp_reset_player_answers st pid = { st with
      answers := st.answers.filter (fun a =>
        !(a.player_id == pid && a.session_id == s.session_id)),
      sessions := st.sessions.map (fun t =>
        if t.session_id == s.session_id then { t with is_active := false } else t) } := by
  unfold sp_reset_player_answers
  rw [hfind]

theorem inv_finalize (st : DBState) (pid : Nat) (h : EngineInv st) :
    EngineInv (sp_completing_session st pid) := by
  cases hfind : findActiveSession st pid with
  | none =>
      unfold sp_completing_session
      rw [hfind]
      exact h
  | some s =>
      rw [completing_eq st pid s hfind]
      obtain ⟨⟨hids, hbound⟩, hanc, hone, hown, hsol⟩ := h
      have hidp : ∀ t : Session,
          ((if t.session_id == s.session_id
            then { t with
                    is_completed := true,
                    is_active := false,
                    end_time := maxAnsweredAt st.answers s.session_id }
            else t) : Session).session_id = t.session_id := by
        intro t
        by_cases ht : t.session_id == s.session_id <;> simp [ht]
      have hplp : ∀ t : Session,
          ((if t.session_id == s.session_id
            then { t with
                    is_completed := true,
                    is_active := false,
                    end_time := maxAnsweredAt st.answers s.session_id }
            else t) : Session).player_id = t.player_id := by
        intro t
        by_cases ht : t.session_id == s.session_id <;> simp [ht]
      refine ⟨⟨?_, ?_⟩, ?_, ?_, ?_, ?_⟩
      · rw [map_sessions_ids _ hidp]
        exact hids
      · intro t ht
        rcases List.mem_map.mp ht with ⟨t₀, ht₀, hft⟩
        rw [← hft, hidp t₀]
        exact hbound t₀ ht₀
      · intro t ht hact
        rcases List.mem_map.mp ht with ⟨t₀, ht₀, hft⟩
        rw [← hft] at hact ⊢
        by_cases hm : t₀.session_id == s.session_id
        · rw [if_pos hm] at hact
          exact absurd hact (by simp)
        · rw [if_neg hm] at hact ⊢
          exact hanc t₀ ht₀ hact
      · intro p
        refine le_trans (countP_map_le _ _ ?_ _) (hone p)
        intro t hpt
        by_cases hm : t.session_id == s.session_id
        · rw [if_pos hm] at hpt
          simp at hpt
        · rw [if_neg hm] at hpt
          exact hpt
      · intro a ha
        obtain ⟨s₀, hs₀, hid0, hpl0⟩ := hown a ha
        refine ⟨_, List.mem_map_of_mem _ hs₀, ?_, ?_⟩
        · rw [hidp s₀]
          exact hid0
        · rw [hplp s₀]
          exact hpl0
      · intro t ht hact
        rcases List.mem_map.mp ht with ⟨t₀, ht₀, hft⟩
        rw [← hft] at hact ⊢
        by_cases hm : t₀.session_id == s.session_id
        · rw [if_pos hm] at hact
          exact absurd hact (by simp)
        · rw [if_neg hm] at hact ⊢
          exact hsol t₀ ht₀ hact

theorem inv_reset (st : DBState) (pid : Nat) (h : EngineInv st) :
    EngineInv (sp_reset_player_answers st pid) := by
  cases hfind : findActiveSession st pid with
  | none =>
      unfold sp_reset_player_answers
      rw [hfind]
      exact h
  | some s =>
      rw [reset_eq st pid s hfind]
      obtain ⟨⟨hids, hbound⟩, hanc, hone, hown, hsol⟩ := h
      have hidp : ∀ t : Session,
          ((if t.session_id == s.session_id
            then { t with is_active := false } else t) : Session).session_id = t.session_id := by
        intro t
        by_cases ht : t.session_id == s.session_id <;> simp [ht]
      have hplp : ∀ t : Session,
          ((if t.session_id == s.session_id
            then { t with is_active := false } else t) : Session).player_id = t.player_id := by
        intro t
        by_cases ht : t.session_id == s.session_id <;> simp [ht]
      refine ⟨⟨?_, ?_⟩, ?_, ?_, ?_, ?_⟩
      · rw [map_sessions_ids _ hidp]
        exact hids
      · intro t ht
        rcases List.mem_map.mp ht with ⟨t₀, ht₀, hft⟩
        rw [← hft, hidp t₀]
        exact hbound t₀ ht₀
      · intro t ht hact
        rcases List.mem_map.mp ht with ⟨t₀, ht₀, hft⟩
        rw [← hft] at hact ⊢
        by_cases hm : t₀.session_id == s.session_id
        · rw [if_pos hm] at hact
          exact absurd hact (by simp)
        · rw [if_neg hm] at hact ⊢
          exact hanc t₀ ht₀ hact
      · intro p
        refine le_trans (countP_map_le _ _ ?_ _) (hone p)
        intro t hpt
        by_cases hm : t.session_id == s.session_id
        · rw [if_pos hm] at hpt
          simp at hpt
        · rw [if_neg hm] at hpt
          exact hpt
      · intro a ha
        have ha' := List.mem_filter.mp ha
        obtain ⟨s₀, hs₀, hid0, hpl0⟩ := hown a ha'.1
        refine ⟨_, List.mem_map_of_mem _ hs₀, ?_, ?_⟩
        · rw [hidp s₀]
          exact hid0
        · rw [hplp s₀]
          exact hpl0
      · intro t ht hact
        rcases List.mem_map.mp ht with ⟨t₀, ht₀, hft⟩
        rw [← hft] at hact ⊢
        by_cases hm : t₀.session_id == s.session_id
        · rw [if_pos hm] at hact
          exact absurd hact (by simp)
        · rw [if_neg hm] at hact ⊢
          have hbase := hsol t₀ ht₀ hact
          have hne : t₀.session_id ≠ s.session_id := by simpa using hm
          rw [countBySession, List.countP_filter, hbase, countBySession]
          apply List.countP_congr
          intro a ha
          by_cases hsid : a.session_id = t₀.session_id
          · simp [hsid, hne]
          · simp [hsid]

theorem inv_update (st : DBState) (pid : Nat) (h : EngineInv st) :
    EngineInv (sp_update_high_scores st pid) := by
  have hfields : (sp_update_high_scores st pid).sessions = st.sessions ∧
      (sp_update_high_scores st pid).answers = st.answers ∧
      (sp_update_high_scores st pid).nextSessionId = st.nextSessionId := by
    unfold sp_update_high_scores
    cases latestCompletedSession st pid with
    | none => exact ⟨rfl, rfl, rfl⟩
    | some s =>
        simp only
        by_cases hc : 0 < countCorrect st.answers pid s.session_id ∧
            countByPlayerSession st.answers pid s.session_id = 20
        · rw [if_pos hc]
          cases s.end_time <;> exact ⟨rfl, rfl, rfl⟩
        · rw [if_neg hc]
          exact ⟨rfl, rfl, rfl⟩
  exact inv_of_fields_eq st _ h hfields.1 hfields.2.1 hfields.2.2

theorem inv_applyOp (st : DBState) (op : Op) (h : EngineInv st) :
    EngineInv (applyOp st op) := by
  cases op with
  | getQuestions pid => exact inv_getOrCreate st pid h
  | record pid qid letter =>
      simp only [applyOp]
      cases hres : sp_record_player_answers st pid qid letter with
      | error e => exact h
      | ok st' => exact inv_record st pid qid letter st' hres h
  | finalize pid => exact inv_finalize st pid h
  | reset pid => exact inv_reset st pid h
  | updateHighScores pid => exact inv_update st pid h

theorem inv_reachable {st : DBState} (h : Reachable st) : EngineInv st := by
  induction h with
  | init qs => exact inv_initState qs
  | step h op ih => exact inv_applyOp _ op ih

/-- C3: in every state reachable by engine operations each player has at most
one session row with `is_active = true`; `getOrCreateActiveSession` returns
the existing active session id without mutating anything when one exists, and
otherwise only appends a fresh session row with `questions_solved = 0`,
`is_completed = false`, `is_active = true`. -/
theorem C3_at_most_one_active_session :
    (∀ st : DBState, Reachable st → ∀ pid : Nat,
        st.sessions.countP (fun s => s.player_id == pid && s.is_active == true) ≤ 1) ∧
    (∀ (st : DBState) (pid : Nat) (s : Session), findActiveSession st pid = some s →
        (getOrCreateActiveSession st pid).1 = st ∧
        (getOrCreateActiveSession st pid).2 = s.session_id ∧
        s ∈ st.sessions ∧ s.player_id = pid ∧ s.is_active = true ∧ s.is_completed = false) ∧
    (∀ (st : DBState) (pid : Nat), findActiveSession st pid = none →
        (getOrCreateActiveSession st pid).1.sessions
          = st.sessions ++ [freshSession st.nextSessionId pid st.clock] ∧
        (getOrCreateActiveSession st pid).2 = st.nextSessionId ∧
        (freshSession st.nextSessionId pid st.clock).questions_solved = 0 ∧
        (freshSession st.nextSessionId pid st.clock).is_completed = false ∧
        (freshSession st.nextSessionId pid st.clock).is_active = true) := by
  refine ⟨?_, ?_, ?_⟩
  · intro st h pid
    exact (inv_reachable h).2.2.1 pid
  · intro st pid s hfind
    unfold getOrCreateActiveSession
    rw [hfind]
    have hpred := List.find?_some hfind
    simp only [Bool.and_eq_true, beq_iff_eq] at hpred
    exact ⟨rfl, rfl, List.mem_of_find?_eq_some hfind, hpred.1.1, hpred.2, hpred.1.2⟩
  · intro st pid hfind
    unfold getOrCreateActiveSession
    rw [hfind]
    exact ⟨rfl, rfl, rfl, rfl, rfl⟩

/-- A small reachable state: player 7 got a session from
`fn_get_unanswered_questions` and recorded the answer to question 1. -/
def twoOpState : DBState :=
  applyOp (applyOp (initState [(1, 'a')]) (.getQuestions 7)) (.record 7 1 'a')

/-- The active session row of `twoOpState`. -/
def sessionOne : Session := ⟨1, 7, 0, none, 1, false, true⟩

/-- Witness for C3: in the concrete reachable state `twoOpState`, player 7
has at most one active session. -/
theorem C3_witness :
    twoOpState.sessions.countP (fun s => s.player_id == 7 && s.is_active == true) ≤ 1 :=
  C3_at_most_one_active_session.1 twoOpState
    (Reachable.step (Reachable.step (Reachable.init [(1, 'a')]) (.getQuestions 7))
      (.record 7 1 'a')) 7

/-- C9: for a player with an active session, `sp_reset_player_answers`
removes every answer row of that session (in reachable states all such rows
belong to the player), keeps all answer rows of other sessions, and turns the
session's `is_active` off while preserving its `is_completed`, `start_time`
and `end_time`; the deletion and the deactivation happen in the one
transition. -/
theorem C9_reset_deletes_and_deactivates (st : DBState) (pid : Nat) (s : Session)
    (hreach : Reachable st) (hfind : findActiveSession st pid = some s) :
    (∀ a ∈ (sp_reset_player_answers st pid).answers, a.session_id ≠ s.session_id) ∧
    (∀ a ∈ st.answers, a.session_id ≠ s.session_id →
        a ∈ (sp_reset_player_answers st pid).answers) ∧
    (∀ t ∈ st.sessions, ∃ t' ∈ (sp_reset_player_answers st pid).sessions,
        t'.session_id = t.session_id ∧ t'.player_id = t.player_id ∧
        t'.is_completed = t.is_completed ∧ t'.start_time = t.start_time ∧
        t'.end_time = t.end_time ∧
        (t.session_id = s.session_id → t'.is_active = false) ∧
        (t.session_id ≠ s.session_id → t' = t)) := by
  obtain ⟨⟨hids, hbound⟩, hanc, hone, hown, hsol⟩ := inv_reachable hreach
  have hsmem : s ∈ st.sessions := List.mem_of_find?_eq_some hfind
  have hpred := List.find?_some hfind
  simp only [Bool.and_eq_true, beq_iff_eq] at hpred
  rw [reset_eq st pid s hfind]
  refine ⟨?_, ?_, ?_⟩
  · intro a ha hcon
    have ha' := List.mem_filter.mp ha
    obtain ⟨s₀, hs₀, hid0, hpl0⟩ := hown a ha'.1
    have hs₀s : s₀ = s := List.inj_on_of_nodup_map hids hs₀ hsmem (by rw [hid0, hcon])
    have hap : a.player_id = pid := by rw [← hpl0, hs₀s, hpred.1.1]
    have hk := ha'.2
    simp [hap, hcon] at hk
  · intro a ha hne
    apply List.mem_filter.mpr
    refine ⟨ha, ?_⟩
    simp [hne]
  · intro t ht
    refine ⟨_, List.mem_map_of_mem _ ht, ?_, ?_, ?_, ?_, ?_, ?_, ?_⟩
    · by_cases hm : t.session_id == s.session_id <;> simp [hm]
    · by_cases hm : t.session_id == s.session_id <;> simp [hm]
    · by_cases hm : t.session_id == s.session_id <;> simp [hm]
    · by_cases hm : t.session_id == s.session_id <;> simp [hm]
    · by_cases hm : t.session_id == s.session_id <;> simp [hm]
    · intro hid
      rw [if_pos (beq_iff_eq.mpr hid)]
    · intro hid
      rw [if_neg (by simpa using hid)]

/-- Witness for C9: resetting player 7 in `twoOpState` leaves a session row
with id 1 deactivated and all other columns unchanged. -/
theorem C9_witness :
    ∃ t' ∈ (sp_reset_player_answers twoOpState 7).sessions,
      t'.session_id = sessionOne.session_id ∧ t'.player_id = sessionOne.player_id ∧
      t'.is_completed = sessionOne.is_completed ∧ t'.start_time = sessionOne.start_time ∧
      t'.end_time = sessionOne.end_time ∧
      (sessionOne.session_id = sessionOne.session_id → t'.is_active = false) ∧
      (sessionOne.session_id ≠ sessionOne.session_id → t' = sessionOne) :=
  (C9_reset_deletes_and_deactivates twoOpState 7 sessionOne
    (Reachable.step (Reachable.step (Reachable.init [(1, 'a')]) (.getQuestions 7))
      (.record 7 1 'a')) rfl).2.2 sessionOne (by decide)

/-! ### The solved-count invariant under answer sequences (claim C2) -/

/-- The post-state of one successful `sp_record_player_answers` call. -/
def recordedState (st : DBState) (pid q : Nat) (l : Char) (s : Session) (c : Char) : DBState :=
  { st with
    answers := st.answers ++ [⟨pid, q, s.session_id, l, l == c, st.clock⟩],
    sessions := st.sessions.map (fun t =>
      if t.session_id == s.session_id
      then { t with questions_solved :=
          (countBySession (st.answers ++ [⟨pid, q, s.session_id, l, l == c, st.clock⟩])
            t.session_id) }
      else t),
    clock := st.clock + 1 }

theorem countBySession_snoc (ans : List AnswerRow) (row : AnswerRow) (sid : Nat) :
    countBySession (ans ++ [row]) sid
      = countBySession ans sid + (if row.session_id == sid then 1 else 0) := by
  unfold countBySession
  rw [List.countP_append]
  simp [List.countP_cons]

theorem hasAnswer_snoc (ans : List AnswerRow) (row : AnswerRow) (pid qid sid : Nat) :
    hasAnswer (ans ++ [row]) pid qid sid
      = (hasAnswer ans pid qid sid ||
         (row.player_id == pid && row.question_id == qid && row.session_id == sid)) := by
  unfold hasAnswer
  rw [List.any_append]
  simp

theorem hasAnswer_eq_false_of_count_zero (ans : List AnswerRow) (pid qid sid : Nat)
    (h : countBySession ans sid = 0) : hasAnswer ans pid qid sid = false := by
  rw [countBySession, List.countP_eq_zero] at h
  rw [hasAnswer, List.any_eq_false]
  intro a ha hcon
  simp only [Bool.and_eq_true] at hcon
  exact h a ha hcon.2

theorem recordedState_find (st : DBState) (pid q : Nat) (l : Char) (s : Session) (c : Char)
    (hfind : findActiveSession st pid = some s) :
    findActiveSession (recordedState st pid q l s c) pid = some
      { s with questions_solved :=
          (countBySession (st.answers ++ [⟨pid, q, s.session_id, l, l == c, st.clock⟩])
            s.session_id) } := by
  unfold findActiveSession recordedState
  simp only
  rw [find?_active_map _ pid _ ?_ ?_ ?_]
  · rw [show st.sessions.find?
        (fun t => t.player_id == pid && t.is_completed == false && t.is_active == true)
        = some s from hfind]
    simp
  · intro t
    by_cases h : t.session_id == s.session_id <;> simp [h]
  · intro t
    by_cases h : t.session_id == s.session_id <;> simp [h]
  · intro t
    by_cases h : t.session_id == s.session_id <;> simp [h]

theorem recordedState_solved (st : DBState) (pid q : Nat) (l : Char) (s : Session) (c : Char) :
    ∀ t ∈ (recordedState st pid q l s c).sessions, t.session_id = s.session_id →
      t.questions_solved = countBySession (recordedState st pid q l s c).answers s.session_id := by
  intro t ht hts
  rcases List.mem_map.mp ht with ⟨t₀, ht₀, hft⟩
  by_cases hm : t₀.session_id == s.session_id
  · rw [← hft, if_pos hm]
    simp only
    have hm' : t₀.session_id = s.session_id := by simpa using hm
    rw [hm']
    rfl
  · rw [← hft] at hts
    rw [if_neg hm] at hts
    exact absurd (beq_iff_eq.mpr hts) hm

theorem recordMany_spec (pid : Nat) (qs : List (Nat × Char)) :
    ∀ (st : DBState) (sid : Nat),
    (∃ s, findActiveSession st pid = some s ∧ s.session_id = sid) →
    ((qs.map Prod.fst).Nodup) →
    (∀ p ∈ qs, (lookupCorrect st.questions p.1).isSome) →
    (∀ p ∈ qs, hasAnswer st.answers pid p.1 sid = false) →
    ∃ st', recordMany st pid qs = .ok st' ∧
      countBySession st'.answers sid = countBySession st.answers sid + qs.length ∧
      (qs = [] → st' = st) ∧
      (qs ≠ [] → ∀ t ∈ st'.sessions, t.session_id = sid →
          t.questions_solved = countBySession st'.answers sid) := by
  induction qs with
  | nil =>
      intro st sid hfind hnodup hq hhas
      exact ⟨st, rfl, by simp, fun _ => rfl, fun hne => absurd rfl hne⟩
  | cons ql rest ih =>
      intro st sid hfind hnodup hq hhas
      obtain ⟨s, hfind, hsid⟩ := hfind
      obtain ⟨q, l⟩ := ql
      have hqhead : (lookupCorrect st.questions q).isSome := hq (q, l) (by simp)
      obtain ⟨c, hlook⟩ := Option.isSome_iff_exists.mp hqhead
      have hhead : hasAnswer st.answers pid q s.session_id = false := by
        rw [hsid]
        exact hhas (q, l) (by simp)
      have hrec : sp_record_player_answers st pid q l = .ok (recordedState st pid q l s c) :=
        record_eq_ok st pid q l s c hfind hlook hhead
      have hstep : recordMany st pid ((q, l) :: rest)
          = recordMany (recordedState st pid q l s c) pid rest := by
        simp only [recordMany, hrec]
      have hcount1 : countBySession (recordedState st pid q l s c).answers sid
          = countBySession st.answers sid + 1 := by
        show countBySession (st.answers ++ [⟨pid, q, s.session_id, l, l == c, st.clock⟩]) sid
          = countBySession st.answers sid + 1
        rw [countBySession_snoc]
        rw [if_pos (by simp [hsid])]
      have hnodup' : (rest.map Prod.fst).Nodup := by
        simp only [List.map_cons, List.nodup_cons] at hnodup
        exact hnodup.2
      have hqnotin : q ∉ rest.map Prod.fst := by
        simp only [List.map_cons, List.nodup_cons] at hnodup
        exact hnodup.1
      have hq' : ∀ p ∈ rest, (lookupCorrect (recordedState st pid q l s c).questions p.1).isSome := by
        intro p hp
        show (lookupCorrect st.questions p.1).isSome
        exact hq p (by simp [hp])
      have hhas' : ∀ p ∈ rest, hasAnswer (recordedState st pid q l s c).answers pid p.1 sid = false := by
        intro p hp
        show hasAnswer (st.answers ++ [⟨pid, q, s.session_id, l, l == c, st.clock⟩]) pid p.1 sid = false
        rw [hasAnswer_snoc]
        have h1 := hhas p (by simp [hp])
        have h2 : (q == p.1) = false := by
          simp only [beq_eq_false_iff_ne, ne_eq]
          intro hcon
          exact hqnotin (by rw [hcon]; exact List.mem_map_of_mem _ hp)
        simp [h1, h2]
      have hfind' : ∃ s₁, findActiveSession (recordedState st pid q l s c) pid = some s₁ ∧
          s₁.session_id = sid := by
        refine ⟨_, recordedState_find st pid q l s c hfind, ?_⟩
        simpa using hsid
      obtain ⟨st', hok, hcount, hnil, hsolve⟩ :=
        ih (recordedState st pid q l s c) sid hfind' hnodup' hq' hhas'
      refine ⟨st', by rw [hstep]; exact hok, ?_, ?_, ?_⟩
      · rw [hcount, hcount1]
        simp
        omega
      · intro hcon
        exact absurd hcon (by simp)
      · intro hne t ht hts
        cases hr : rest with
        | nil =>
            rw [hr] at hnil
            have hst' : st' = recordedState st pid q l s c := hnil rfl
            rw [hst'] at ht ⊢
            have := recordedState_solved st pid q l s c t ht (by rw [hts, hsid])
            rw [this, hsid]
        | cons r rs =>
            exact hsolve (by rw [hr]; simp) t ht hts

/-- C2: for a player's active session with no recorded answers yet, after
every prefix of a sequence of `sp_record_player_answers` calls with distinct
known question ids, the session's `questions_solved` equals the live count of
answer rows for that session (the trigger recomputation runs in the same
transition as the insert), and after `n` calls both equal `n`. -/
theorem C2_solved_count_equals_live_count (st : DBState) (pid : Nat) (s : Session)
    (qs : List (Nat × Char))
    (hfind : findActiveSession st pid = some s)
    (hzero : countBySession st.answers s.session_id = 0)
    (hnodup : (qs.map Prod.fst).Nodup)
    (hq : ∀ p ∈ qs, (lookupCorrect st.questions p.1).isSome) :
    ∀ n, 1 ≤ n → n ≤ qs.length →
      ∃ st', recordMany st pid (qs.take n) = .ok st' ∧
        countBySession st'.answers s.session_id = n ∧
        ∀ t ∈ st'.sessions, t.session_id = s.session_id → t.questions_solved = n := by
  intro n h1 hn
  have htake_nodup : ((qs.take n).map Prod.fst).Nodup := by
    rw [List.map_take]
    exact (List.take_sublist n _).nodup hnodup
  have hq' : ∀ p ∈ qs.take n, (lookupCorrect st.questions p.1).isSome :=
    fun p hp => hq p ((List.take_sublist n qs).subset hp)
  have hhas : ∀ p ∈ qs.take n, hasAnswer st.answers pid p.1 s.session_id = false :=
    fun p _ => hasAnswer_eq_false_of_count_zero st.answers pid p.1 s.session_id hzero
  obtain ⟨st', hok, hcount, -, hsolve⟩ :=
    recordMany_spec pid (qs.take n) st s.session_id ⟨s, hfind, rfl⟩ htake_nodup hq' hhas
  have hlen : (qs.take n).length = n := by
    rw [List.length_take]
    omega
  have hne : qs.take n ≠ [] := by
    intro hcon
    rw [hcon] at hlen
    simp at hlen
    omega
  refine ⟨st', hok, ?_, ?_⟩
  · rw [hcount, hzero, hlen]
    omega
  · intro t ht hts
    rw [hsolve hne t ht hts, hcount, hzero, hlen]
    omega

/-- A fresh two-question game for player 7. -/
def twoQuestionState : DBState :=
  ⟨[(1, 'a'), (2, 'b')], [⟨1, 7, 0, none, 0, false, true⟩], [], [], 2, 3⟩

/-- Witness for C2: recording both questions of `twoQuestionState` leaves the
session's `questions_solved` at 2, the live answer count. -/
theorem C2_witness :
    ∃ st', recordMany twoQuestionState 7 ([(1, 'a'), (2, 'c')].take 2) = .ok st' ∧
      countBySession st'.answers 1 = 2 ∧
      ∀ t ∈ st'.sessions, t.session_id = 1 → t.questions_solved = 2 :=
  C2_solved_count_equals_live_count twoQuestionState 7 ⟨1, 7, 0, none, 0, false, true⟩
    [(1, 'a'), (2, 'c')] rfl rfl (by decide) (by decide) 2 (by decide) (by decide)

/-! ### The unanswered-question batch (claim C6) -/

theorem countByPlayer_eq_countBySession (st : DBState) (s : Session)
    (hids : (st.sessions.map (·.session_id)).Nodup) (hown : answersOwned st)
    (hsmem : s ∈ st.sessions) :
    countByPlayerSession st.answers s.player_id s.session_id
      = countBySession st.answers s.session_id := by
  unfold countByPlayerSession countBySession
  apply List.countP_congr
  intro a ha
  simp only [Bool.and_eq_true, beq_iff_eq]
  constructor
  · exact fun h => h.2
  · intro h
    obtain ⟨s₀, hs₀, hid0, hpl0⟩ := hown a ha
    have hs₀s : s₀ = s := List.inj_on_of_nodup_map hids hs₀ hsmem (by rw [hid0, h])
    exact ⟨by rw [← hpl0, hs₀s], h⟩

/-- C6: for a player's active session in a reachable state, the unanswered
batch has distinct question ids, contains no question already answered in
that session, has length `20 - questions_solved` when enough unanswered
questions remain and otherwise returns all remaining ones; with no prior
answers and at least 20 questions it returns exactly 20. -/
theorem C6_unanswered_batch (st : DBState) (pid : Nat) (s : Session)
    (shuffle : List (Nat × Char) → List (Nat × Char))
    (hreach : Reachable st)
    (hfind : findActiveSession st pid = some s)
    (hperm : ∀ l, List.Perm (shuffle l) l)
    (hqnodup : (st.questions.map Prod.fst).Nodup) :
    (((unansweredFor st pid s.session_id shuffle).map Prod.fst).Nodup) ∧
    (∀ p ∈ unansweredFor st pid s.session_id shuffle, ∀ a ∈ st.answers,
        a.session_id = s.session_id → a.question_id ≠ p.1) ∧
    (20 - s.questions_solved ≤ (availableQuestions st pid s.session_id).length →
        (unansweredFor st pid s.session_id shuffle).length = 20 - s.questions_solved) ∧
    ((availableQuestions st pid s.session_id).length < 20 - s.questions_solved →
        (unansweredFor st pid s.session_id shuffle).length
          = (availableQuestions st pid s.session_id).length) ∧
    (countByPlayerSession st.answers pid s.session_id = 0 → 20 ≤ st.questions.length →
        (unansweredFor st pid s.session_id shuffle).length = 20) := by
  obtain ⟨⟨hids, hbound⟩, hanc, hone, hown, hsol⟩ := inv_reachable hreach
  have hsmem : s ∈ st.sessions := List.mem_of_find?_eq_some hfind
  have hpred := List.find?_some hfind
  simp only [Bool.and_eq_true, beq_iff_eq] at hpred
  have hsolved : s.questions_solved = countByPlayerSession st.answers pid s.session_id := by
    rw [hsol s hsmem hpred.2, ← countByPlayer_eq_countBySession st s hids hown hsmem,
      hpred.1.1]
  have hlen : (unansweredFor st pid s.session_id shuffle).length
      = min (20 - countByPlayerSession st.answers pid s.session_id)
          (availableQuestions st pid s.session_id).length := by
    unfold unansweredFor
    rw [List.length_take, (hperm (availableQuestions st pid s.session_id)).length_eq]
  have havailnodup : ((availableQuestions st pid s.session_id).map Prod.fst).Nodup :=
    ((List.filter_sublist st.questions).map Prod.fst).nodup hqnodup
  refine ⟨?_, ?_, ?_, ?_, ?_⟩
  · unfold unansweredFor
    rw [List.map_take]
    apply (List.take_sublist _ _).nodup
    exact (((hperm (availableQuestions st pid s.session_id)).map Prod.fst).nodup_iff).mpr
      havailnodup
  · intro p hp a ha hasid
    have hp1 : p ∈ shuffle (availableQuestions st pid s.session_id) :=
      (List.take_sublist _ _).subset hp
    have hp2 : p ∈ availableQuestions st pid s.session_id :=
      (hperm (availableQuestions st pid s.session_id)).subset hp1
    have hp3 := List.mem_filter.mp hp2
    have hnone : st.answers.any (fun b =>
        b.player_id == pid && b.session_id == s.session_id && b.question_id == p.1) = false := by
      have := hp3.2
      simp only [Bool.not_eq_true'] at this
      exact this
    intro hcon
    obtain ⟨s₀, hs₀, hid0, hpl0⟩ := hown a ha
    have hs₀s : s₀ = s := List.inj_on_of_nodup_map hids hs₀ hsmem (by rw [hid0, hasid])
    have hapid : a.player_id = pid := by rw [← hpl0, hs₀s, hpred.1.1]
    have := List.any_eq_false.mp hnone a ha
    simp only [Bool.and_eq_true, beq_iff_eq] at this
    exact this ⟨⟨hapid, hasid⟩, hcon⟩
  · intro hle
    rw [hlen, ← hsolved]
    exact min_eq_left hle
  · intro hlt
    rw [hlen, ← hsolved]
    exact min_eq_right (by omega)
  · intro hcz hq20
    have havail : availableQuestions st pid s.session_id = st.questions := by
      unfold availableQuestions
      apply List.filter_eq_self.mpr
      intro q hq
      simp only [Bool.not_eq_true']
      rw [List.any_eq_false]
      intro a ha hcon
      simp only [Bool.and_eq_true, beq_iff_eq] at hcon
      have : List.countP
          (fun a => a.player_id == pid && a.session_id == s.session_id) st.answers = 0 := hcz
      rw [List.countP_eq_zero] at this
      have := this a ha
      simp only [Bool.and_eq_true, beq_iff_eq] at this
      exact this ⟨hcon.1.1, hcon.1.2⟩
    rw [hlen, hcz, havail]
    simp
    omega

/-- A 20-question table. -/
def qs20 : List (Nat × Char) := (List.range 20).map (fun i => (i + 1, 'a'))

/-- A reachable state where player 7 just received a fresh session against
the 20-question table. -/
def fullGameState : DBState := applyOp (initState qs20) (.getQuestions 7)

/-- Witness for C6: a fresh session over 20 questions receives a batch of
exactly 20 question ids. -/
theorem C6_witness :
    (unansweredFor fullGameState 7 (freshSession 1 7 0).session_id id).length = 20 :=
  (C6_unanswered_batch fullGameState 7 (freshSession 1 7 0) id
    (Reachable.step (Reachable.init qs20) (.getQuestions 7)) rfl
    (fun l => List.Perm.refl l) (by decide)).2.2.2.2 rfl (by decide)
